import Mathlib

/-!
Verification development for the telemetry-over-cellular-modem repository
(files newlast.py, simnew.py, newsim3.py).

The Python sources are shallowly embedded below.  Text handled by the
Python code (`str` values) is modelled as `List Char` (Unicode scalar
sequences); raw serial bytes are modelled as `List Nat` with every
element < 256.  Fallible Python code (expressions that may raise) is
modelled with `Option`.  Python's `float(...)` standard-library parser is
modelled by `pyFloat` (decimal/exponent/inf/nan grammar); the textual
rendering of floats inside `json.dumps` is out of scope per the spec
("JSON/text encoding of numeric values ... provided by a standard
library primitive") and is passed around as an explicit `render`
parameter.
-/

/-- Coerce a Lean string literal to the `List Char` representation used
throughout this development. -/
def strL (s : String) : List Char := s.data

/-- ASCII whitespace recognised by Python's `str.strip()` (the inputs
handled by this program are ASCII serial lines). -/
def pyIsSpace (c : Char) : Bool :=
  c = ' ' || c = '\t' || c = '\n' || c = '\x0d' || c = '\x0b' || c = '\x0c'

/-- Drop trailing characters satisfying `p`. -/
def dropTrail (p : Char → Bool) (s : List Char) : List Char :=
  ((s.reverse).dropWhile p).reverse

/-- Python `str.strip()`: remove leading and trailing whitespace. -/
def pyStrip (s : List Char) : List Char :=
  dropTrail pyIsSpace (s.dropWhile pyIsSpace)

/-- ASCII lower-casing of one character (Python `str.lower()` on the
ASCII keys this program handles). -/
def lowerChar (c : Char) : Char :=
  if 65 ≤ c.toNat ∧ c.toNat ≤ 90 then Char.ofNat (c.toNat + 32) else c

/-- ASCII upper-casing of one character (Python `str.upper()`). -/
def upperChar (c : Char) : Char :=
  if 97 ≤ c.toNat ∧ c.toNat ≤ 122 then Char.ofNat (c.toNat - 32) else c

/-- Python `str.lower()` over the whole string. -/
def lowerStr (s : List Char) : List Char := s.map lowerChar

/-- Python `str.upper()` over the whole string. -/
def upperStr (s : List Char) : List Char := s.map upperChar

/-- Python `s.split(sep)` for a one-character separator: split at every
occurrence, keeping empty pieces; `"".split(sep) = [""]`. -/
def pySplit (sep : Char) : List Char → List (List Char)
  | [] => [[]]
  | c :: rest =>
    let r := pySplit sep rest
    if c = sep then [] :: r
    else
      match r with
      | h :: t => (c :: h) :: t
      | [] => [[c]]

/-- Python `s.split(sep, 1)` when `sep` occurs in `s`: the part before
the first occurrence and the part after it.  (The callers below check
membership of the separator first, exactly as the Python code does.) -/
def splitOnce (sep : Char) : List Char → List Char × List Char
  | [] => ([], [])
  | c :: rest =>
    if c = sep then ([], rest)
    else
      let r := splitOnce sep rest
      (c :: r.1, r.2)

/-- Whether `pre` is a leading segment of `s` (helper of `strIn`). -/
def leadsWith : List Char → List Char → Bool
  | [], _ => true
  | _ :: _, [] => false
  | a :: as, b :: bs => a = b && leadsWith as bs

/-- Python's substring test `needle in hay`. -/
def strIn (needle : List Char) : List Char → Bool
  | [] => leadsWith needle []
  | c :: rest => leadsWith needle (c :: rest) || strIn needle rest

/-! ## Python float parsing (`float(value)` in `send_json_data`) -/

/-- Result of Python's `float(...)`: a finite rational (the decimal
literal's exact value; the spec allows exact-value reasoning "within
floating-point tolerance"), or one of the non-finite values `inf`,
`-inf`, `nan` that `float` also accepts. -/
inductive PyFloat where
  | finite (q : ℚ)
  | inf
  | neginf
  | nan
deriving DecidableEq, Repr

/-- Negation of a parsed float (for a leading minus sign). -/
def PyFloat.neg : PyFloat → PyFloat
  | .finite q => .finite (-q)
  | .inf => .neginf
  | .neginf => .inf
  | .nan => .nan

/-- Whether a parsed float value is finite. -/
def PyFloat.isFinite : PyFloat → Bool
  | .finite _ => true
  | _ => false

/-- ASCII decimal digit test. -/
def pyIsDigit (c : Char) : Bool := 48 ≤ c.toNat && c.toNat ≤ 57

/-- Numeric value of an ASCII digit. -/
def digitVal (c : Char) : Nat := c.toNat - 48

/-- Continue scanning a digit run after its first digit, allowing a
single underscore between two digits (CPython's numeric-literal rule).
Returns the digits seen and the unconsumed remainder. -/
def digitsCont : List Char → List Char × List Char
  | [] => ([], [])
  | '_' :: rest =>
    match rest with
    | c :: rest2 =>
      if pyIsDigit c then
        let r := digitsCont rest2
        (c :: r.1, r.2)
      else ([], '_' :: c :: rest2)
    | [] => ([], ['_'])
  | c :: rest =>
    if pyIsDigit c then
      let r := digitsCont rest
      (c :: r.1, r.2)
    else ([], c :: rest)

/-- A digit run that must start with a digit; `none` when the input does
not start with one. -/
def digitsPart : List Char → Option (List Char × List Char)
  | [] => none
  | c :: rest =>
    if pyIsDigit c then
      let r := digitsCont rest
      some (c :: r.1, r.2)
    else none

/-- Natural-number value of a digit string. -/
def natOfDigits (ds : List Char) : Nat :=
  ds.foldl (fun n c => 10 * n + digitVal c) 0

/-- Numerator of the exact rational value of an integer part plus a
fraction part (over `mantissaDen`). -/
def mantissaNum (ip fp : List Char) : Nat :=
  natOfDigits ip * 10 ^ fp.length + natOfDigits fp

/-- Denominator matching `mantissaNum`. -/
def mantissaDen (fp : List Char) : Nat := 10 ^ fp.length

/-- Parse the body of a Python float literal after an optional sign has
been removed: `inf`/`infinity`/`nan` (case-insensitive) or a decimal
with optional fraction and exponent. -/
def pyFloatCore (s : List Char) : Option PyFloat :=
  let low := lowerStr s
  if low = strL "inf" ∨ low = strL "infinity" then some .inf
  else if low = strL "nan" then some .nan
  else
    let p1 := match digitsPart s with
      | some r => r
      | none => ([], s)
    let ip := p1.1
    let p2 := match p1.2 with
      | '.' :: rest =>
        (match digitsPart rest with
         | some r => r
         | none => ([], rest))
      | r1 => ([], r1)
    let fp := p2.1
    if ip = [] ∧ fp = [] then none
    else
      match p2.2 with
      | [] => some (.finite (Rat.divInt (mantissaNum ip fp) (mantissaDen fp)))
      | e :: rest =>
        if e = 'e' ∨ e = 'E' then
          let sr : Bool × List Char := match rest with
            | '+' :: r => (false, r)
            | '-' :: r => (true, r)
            | r => (false, r)
          match digitsPart sr.2 with
          | some (eds, []) =>
            if sr.1 then
              some (.finite (Rat.divInt (mantissaNum ip fp)
                (mantissaDen fp * 10 ^ natOfDigits eds)))
            else
              some (.finite (Rat.divInt (mantissaNum ip fp * 10 ^ natOfDigits eds)
                (mantissaDen fp)))
          | _ => none
        else none

/-- Model of Python's `float(value)`: strip whitespace, handle an
optional sign, then parse the literal body; `none` models the
`ValueError` that `send_json_data` catches. -/
def pyFloat (s : List Char) : Option PyFloat :=
  match pyStrip s with
  | '+' :: r => pyFloatCore r
  | '-' :: r => (pyFloatCore r).map PyFloat.neg
  | t => pyFloatCore t

/-! ## Byte-level serial modelling: UTF-8 encode and permissive decode -/

/-- UTF-8 encoding of one Unicode scalar value (Python `str.encode()`
for one character). -/
def utf8EncodeChar (c : Char) : List Nat :=
  let n := c.toNat
  if n < 128 then [n]
  else if n < 2048 then [192 + n / 64, 128 + n % 64]
  else if n < 65536 then [224 + n / 4096, 128 + (n / 64) % 64, 128 + n % 64]
  else [240 + n / 262144, 128 + (n / 4096) % 64, 128 + (n / 64) % 64, 128 + n % 64]

/-- UTF-8 encoding of a string (Python `payload.encode('utf-8')` /
`payload.encode()`). -/
def utf8Encode (s : List Char) : List Nat :=
  (s.map utf8EncodeChar).flatten

/-- Fuel-driven UTF-8 decoder with CPython's `errors='ignore'` handling:
a well-formed sequence yields its scalar, an ill-formed or truncated
sequence is silently dropped (its maximal subpart is skipped) and
decoding continues.  The fuel argument only serves termination; it is
instantiated with the input length. -/
def decodeIgnoreAux : Nat → List Nat → List Char
  | 0, _ => []
  | _, [] => []
  | fuel + 1, b :: rest =>
    if b < 128 then Char.ofNat b :: decodeIgnoreAux fuel rest
    else if 194 ≤ b ∧ b ≤ 223 then
      match rest with
      | c :: r2 =>
        if 128 ≤ c ∧ c ≤ 191 then
          Char.ofNat ((b - 192) * 64 + (c - 128)) :: decodeIgnoreAux fuel r2
        else decodeIgnoreAux fuel rest
      | [] => []
    else if 224 ≤ b ∧ b ≤ 239 then
      let lo1 := if b = 224 then 160 else 128
      let hi1 := if b = 237 then 159 else 191
      match rest with
      | c1 :: r2 =>
        if lo1 ≤ c1 ∧ c1 ≤ hi1 then
          match r2 with
          | c2 :: r3 =>
            if 128 ≤ c2 ∧ c2 ≤ 191 then
              Char.ofNat ((b - 224) * 4096 + (c1 - 128) * 64 + (c2 - 128)) ::
                decodeIgnoreAux fuel r3
            else decodeIgnoreAux fuel r2
          | [] => []
        else decodeIgnoreAux fuel rest
      | [] => []
    else if 240 ≤ b ∧ b ≤ 244 then
      let lo1 := if b = 240 then 144 else 128
      let hi1 := if b = 244 then 143 else 191
      match rest with
      | c1 :: r2 =>
        if lo1 ≤ c1 ∧ c1 ≤ hi1 then
          match r2 with
          | c2 :: r3 =>
            if 128 ≤ c2 ∧ c2 ≤ 191 then
              match r3 with
              | c3 :: r4 =>
                if 128 ≤ c3 ∧ c3 ≤ 191 then
                  Char.ofNat
                      ((b - 240) * 262144 + (c1 - 128) * 4096 + (c2 - 128) * 64 +
                        (c3 - 128)) ::
                    decodeIgnoreAux fuel r4
                else decodeIgnoreAux fuel r3
              | [] => []
            else decodeIgnoreAux fuel r2
          | [] => []
        else decodeIgnoreAux fuel rest
      | [] => []
    else decodeIgnoreAux fuel rest

/-- CPython `bytes.decode(errors='ignore')`, as used by `send_at`,
`wait_for` and the sensor `readline` in all three source files:
undecodable bytes are dropped, never raising. -/
def decodeIgnore (bs : List Nat) : List Char := decodeIgnoreAux bs.length bs

/-- The Unicode replacement character U+FFFD. -/
def replacementChar : Char := Char.ofNat 65533

/-- Modelled from the spec: the decoding behaviour the spec describes
for ATExchange ("any byte that cannot be decoded is replaced, never
raises"), i.e. `errors='replace'` semantics: each undecodable byte
yields U+FFFD instead of being dropped.  The source code instead uses
`errors='ignore'`; this definition exists only to compare the two. -/
def decodeReplaceAux : Nat → List Nat → List Char
  | 0, _ => []
  | _, [] => []
  | fuel + 1, b :: rest =>
    if b < 128 then Char.ofNat b :: decodeReplaceAux fuel rest
    else if 194 ≤ b ∧ b ≤ 223 then
      match rest with
      | c :: r2 =>
        if 128 ≤ c ∧ c ≤ 191 then
          Char.ofNat ((b - 192) * 64 + (c - 128)) :: decodeReplaceAux fuel r2
        else replacementChar :: decodeReplaceAux fuel rest
      | [] => [replacementChar]
    else if 224 ≤ b ∧ b ≤ 239 then
      let lo1 := if b = 224 then 160 else 128
      let hi1 := if b = 237 then 159 else 191
      match rest with
      | c1 :: r2 =>
        if lo1 ≤ c1 ∧ c1 ≤ hi1 then
          match r2 with
          | c2 :: r3 =>
            if 128 ≤ c2 ∧ c2 ≤ 191 then
              Char.ofNat ((b - 224) * 4096 + (c1 - 128) * 64 + (c2 - 128)) ::
                decodeReplaceAux fuel r3
            else replacementChar :: decodeReplaceAux fuel r2
          | [] => [replacementChar]
        else replacementChar :: decodeReplaceAux fuel rest
      | [] => [replacementChar]
    else if 240 ≤ b ∧ b ≤ 244 then
      let lo1 := if b = 240 then 144 else 128
      let hi1 := if b = 244 then 143 else 191
      match rest with
      | c1 :: r2 =>
        if lo1 ≤ c1 ∧ c1 ≤ hi1 then
          match r2 with
          | c2 :: r3 =>
            if 128 ≤ c2 ∧ c2 ≤ 191 then
              match r3 with
              | c3 :: r4 =>
                if 128 ≤ c3 ∧ c3 ≤ 191 then
                  Char.ofNat
                      ((b - 240) * 262144 + (c1 - 128) * 4096 + (c2 - 128) * 64 +
                        (c3 - 128)) ::
                    decodeReplaceAux fuel r4
                else replacementChar :: decodeReplaceAux fuel r3
              | [] => [replacementChar]
            else replacementChar :: decodeReplaceAux fuel r2
          | [] => [replacementChar]
        else replacementChar :: decodeReplaceAux fuel rest
      | [] => [replacementChar]
    else replacementChar :: decodeReplaceAux fuel rest

/-- Spec-described replacing decoder (see `decodeReplaceAux`). -/
def decodeReplace (bs : List Nat) : List Char := decodeReplaceAux bs.length bs

/-! ## ATExchange primitives (`send_at`, `wait_for`) -/

/-- Model of `send_at`'s read-back: after the settle delay the whole
available input is drained and decoded permissively; the response text
is returned no matter what it contains. -/
def sendAtResponse (availableBytes : List Nat) : List Char :=
  decodeIgnore availableBytes

/-- The polling loop of `wait_for`: each element of `chunks` is the
byte string returned by one `ser.read(...)` call inside the deadline;
each chunk is decoded on its own (exactly as the source decodes each
read separately) and appended to the accumulated buffer `buf`, and the
keyword is tested for containment after every read.  When the chunk
list is exhausted the deadline has passed and the result is `false`. -/
def waitForAux (keyword : List Char) (buf : List Char) : List (List Nat) → Bool
  | [] => false
  | c :: cs =>
    let buf2 := buf ++ decodeIgnore c
    if strIn keyword buf2 then true else waitForAux keyword buf2 cs

/-- Model of `wait_for(ser, keyword, timeout)`: start from an empty
buffer; `chunks` are the reads that happen before the deadline. -/
def waitForChunks (keyword : List Char) (chunks : List (List Nat)) : Bool :=
  waitForAux keyword [] chunks

/-! ## Python dict model (insertion ordered, update in place) -/

/-- A Python `dict` keyed by strings: an association list with unique
keys in insertion order.  `d[k] = v` updates the existing entry in
place when the key is present and appends otherwise. -/
def pyInsert (d : List (List Char × List Char)) (k v : List Char) :
    List (List Char × List Char) :=
  match d with
  | [] => [(k, v)]
  | p :: rest => if p.1 = k then (k, v) :: rest else p :: pyInsert rest k v

/-- First-match lookup (Python `d[k]` / `k in d`). -/
def dLookup (d : List (List Char × List Char)) (k : List Char) :
    Option (List Char) :=
  match d with
  | [] => none
  | p :: rest => if p.1 = k then some p.2 else dLookup rest k

/-- The key view `d.keys()` in insertion order. -/
def dKeys (d : List (List Char × List Char)) : List (List Char) :=
  d.map Prod.fst

/-- The value of the last pair in `ps` whose key is `k` (used to state
Python-dict overwrite semantics). -/
def lastVal (k : List Char) : List (List Char × List Char) → Option (List Char)
  | [] => none
  | p :: rest =>
    match lastVal k rest with
    | some w => some w
    | none => if p.1 = k then some p.2 else none

/-! ## newlast.py: line parsing and JSON telemetry encoding -/

/-- One entry of `[x.split('=') for x in line.split(',')]` turned into
the dict-comprehension contribution `{k.strip(): v.strip() ... if
len(k.strip()) > 0}`: `none` when the entry is skipped (empty stripped
key).  Entries whose length is not 2 never reach this point because the
tuple unpacking raises first (see `parseEntriesNewlast`). -/
def entryPair2 (parts : List (List Char)) : Option (List Char × List Char) :=
  match parts with
  | [k, v] => if pyStrip k = [] then none else some (pyStrip k, pyStrip v)
  | _ => none

/-- The `try` block of `main` in newlast.py that builds `data_dict` from
one (already stripped) sensor line: split on commas, split each piece on
every `'='`, unpack each piece as a pair.  A piece that does not split
into exactly two parts makes the tuple unpacking raise `ValueError`,
which the surrounding `except` catches — modelled as `none` (the whole
line is discarded). -/
def insertEntry (d : List (List Char × List Char)) (e : List (List Char)) :
    List (List Char × List Char) :=
  match entryPair2 e with
  | some p => pyInsert d p.1 p.2
  | none => d

/-- See `entryPair2`: the whole dict comprehension, one `insertEntry`
per split piece, guarded by the unpacking that raises unless every
piece split into exactly two parts. -/
def parseEntriesNewlast (l : List Char) : Option (List (List Char × List Char)) :=
  let entries := (pySplit ',' l).map (pySplit '=')
  if entries.all (fun e => e.length = 2) then
    some (entries.foldl insertEntry [])
  else none

/-- `key.strip().lower()` plus the alias normalisation
`temp -> temperature` from `send_json_data`. -/
def normSensorType (k : List Char) : List Char :=
  let s := lowerStr (pyStrip k)
  if s = strL "temp" then strL "temperature" else s

/-- The transformation loop of `send_json_data`: each `key, value` pair
becomes a reading `(sensor_type, float(value))`; a pair whose value
fails numeric parsing is skipped (the `except (ValueError, TypeError)`
branch). -/
def transformReadings (d : List (List Char × List Char)) :
    List (List Char × PyFloat) :=
  match d with
  | [] => []
  | p :: rest =>
    match pyFloat p.2 with
    | some x => (normSensorType p.1, x) :: transformReadings rest
    | none => transformReadings rest

/-- Decimal digits of a natural number (Python `f"{n}"`). -/
def natDigits (n : Nat) : List Char := (Nat.repr n).data

/-- Lowercase hex digit. -/
def hexDigit (n : Nat) : Char :=
  if n < 10 then Char.ofNat (48 + n) else Char.ofNat (87 + n)

/-- A `\uXXXX` escape for a 16-bit code unit. -/
def uEscape (n : Nat) : List Char :=
  ['\\', 'u', hexDigit (n / 4096 % 16), hexDigit (n / 256 % 16),
   hexDigit (n / 16 % 16), hexDigit (n % 16)]

/-- `json.dumps` escaping of one character inside a string literal
(default `ensure_ascii=True`): short escapes for the common control
characters, `\uXXXX` (with surrogate pairs beyond the BMP) for other
control or non-ASCII characters. -/
def jsonEscapeChar (c : Char) : List Char :=
  let n := c.toNat
  if c = '"' then ['\\', '"']
  else if c = '\\' then ['\\', '\\']
  else if c = '\n' then ['\\', 'n']
  else if c = '\t' then ['\\', 't']
  else if c = '\x0d' then ['\\', 'r']
  else if c = '\x08' then ['\\', 'b']
  else if c = '\x0c' then ['\\', 'f']
  else if n < 32 then uEscape n
  else if n < 127 then [c]
  else if n < 65536 then uEscape n
  else uEscape (55296 + (n - 65536) / 1024) ++ uEscape (56320 + (n - 65536) % 1024)

/-- A JSON string literal for `s`. -/
def jsonStringLit (s : List Char) : List Char :=
  '"' :: (s.map jsonEscapeChar).flatten ++ ['"']

/-- Join pieces with a separator (Python `sep.join(...)`). -/
def joinSep (sep : List Char) : List (List Char) → List Char
  | [] => []
  | [x] => x
  | x :: y :: rest => x ++ sep ++ joinSep sep (y :: rest)

/-- `json.dumps(json_payload_list)` for the readings list, with the
numeric rendering of each float value supplied by the abstract standard
library primitive `render` (out of scope per the spec). -/
def jsonDumps (render : PyFloat → List Char)
    (readings : List (List Char × PyFloat)) : List Char :=
  strL "[" ++
    joinSep (strL ", ")
      (readings.map fun r =>
        strL "\x7b\"sensor_type\": " ++ jsonStringLit r.1 ++
          strL ", \"value\": " ++ render r.2 ++ strL "\x7d") ++
    strL "]"

/-- The full HTTP POST request built by `send_json_data` around the
JSON body (note: the `Content-Length` header uses `len(json_string)`,
the character count, exactly as the source does). -/
def httpPostPayload (jsonString : List Char) : List Char :=
  strL "POST /api/data HTTP/1.1\x0d\nHost: merlet.alwaysdata.net\x0d\n" ++
  strL "Connection: keep-alive\x0d\nContent-Type: application/json\x0d\n" ++
  strL "Content-Length: " ++ natDigits jsonString.length ++
  strL "\x0d\n\x0d\n" ++ jsonString

/-- The HTTP payload `send_json_data` produces for a given dict. -/
def httpPayloadOf (render : PyFloat → List Char)
    (d : List (List Char × List Char)) : List Char :=
  httpPostPayload (jsonDumps render (transformReadings d))

/-- The send-announcement text `AT+CIPSEND={SOCKET_ID},{length}` with
`SOCKET_ID = 0`. -/
def cipsendCmd (length : Nat) : List Char :=
  strL "AT+CIPSEND=0," ++ natDigits length

/-- CRLF line terminator appended to every AT command write. -/
def crlf : List Char := strL "\x0d\n"

/-- The single `>` character awaited as the modem's send prompt. -/
def promptKeyword : List Char := strL ">"

/-- The bytes of newlast.py's `AT+CIPSEND` announcement write for a
dict: the announced number is `len(http_payload.encode('utf-8'))`, the
exact encoded byte length of the payload. -/
def cipsendWriteNewlast (render : PyFloat → List Char)
    (d : List (List Char × List Char)) : List Nat :=
  utf8Encode (cipsendCmd (utf8Encode (httpPayloadOf render d)).length ++ crlf)

/-- Outcome of one call to `send_json_data` / `send_data`. -/
inductive SendOutcome where
  | nothingToSend
  | skipped
  | sent
deriving DecidableEq, Repr

/-- Model of newlast.py's `send_json_data`: transform the dict into
readings; with no valid reading return immediately ("No valid data to
send") having written nothing; otherwise write the `AT+CIPSEND`
announcement, await the `>` prompt (reads modelled by `promptChunks`),
and only on success write the encoded payload.  The returned list holds
the byte strings written to the modem link, in order. -/
def send_json_data (render : PyFloat → List Char)
    (d : List (List Char × List Char)) (promptChunks : List (List Nat)) :
    SendOutcome × List (List Nat) :=
  if transformReadings d = [] then (.nothingToSend, [])
  else
    let payload := httpPayloadOf render d
    let cmdWrite := utf8Encode (cipsendCmd (utf8Encode payload).length ++ crlf)
    if waitForChunks promptKeyword promptChunks then
      (.sent, [cmdWrite, utf8Encode payload])
    else (.skipped, [cmdWrite])

/-! ## newlast.py: main-loop step -/

/-- The validated reading sequence a raw sensor line produces in
newlast.py: strip the line, parse it into the dict (empty when the
parse raises), then run the `send_json_data` transformation. -/
def validatedReadingsOfLine (line : List Char) : List (List Char × PyFloat) :=
  match parseEntriesNewlast (pyStrip line) with
  | none => []
  | some d => transformReadings d

/-- What one iteration of newlast.py's main loop did with its line. -/
inductive LineOutcome where
  | empty
  | parseError
  | noPairs
  | send (o : SendOutcome)
deriving DecidableEq, Repr

/-- One iteration of newlast.py's main loop on one raw sensor line:
skip blank lines, catch the parse exception, skip empty dicts, and
otherwise call `send_json_data`.  Returns the outcome together with the
byte strings written to the modem link during the iteration. -/
def mainStepNewlast (render : PyFloat → List Char) (line : List Char)
    (promptChunks : List (List Nat)) : LineOutcome × List (List Nat) :=
  let l := pyStrip line
  if l = [] then (.empty, [])
  else
    match parseEntriesNewlast l with
    | none => (.parseError, [])
    | some d =>
      if d = [] then (.noPairs, [])
      else
        let r := send_json_data render d promptChunks
        (.send r.1, r.2)

/-- The main loop of newlast.py over a whole input: each element of
`steps` is one sensor line together with the prompt reads available for
its transmission window.  No exception escapes an iteration, so the
loop simply maps over the lines. -/
def runNewlast (render : PyFloat → List Char)
    (steps : List (List Char × List (List Nat))) :
    List (LineOutcome × List (List Nat)) :=
  steps.map fun s => mainStepNewlast render s.1 s.2

/-! ## simnew.py: accumulating frame policy and GET telemetry -/

/-- `EXPECTED_KEYS = {'SPEED', 'TEMP', 'GEAR', 'FUEL', 'RPM'}`. -/
def expectedKeys : List (List Char) :=
  [strL "SPEED", strL "TEMP", strL "GEAR", strL "FUEL", strL "RPM"]

/-- `EXPECTED_KEYS.issubset(buffer.keys())`. -/
def bufferComplete (b : List (List Char × List Char)) : Bool :=
  expectedKeys.all fun k => decide (k ∈ dKeys b)

/-- The per-line parsing of simnew.py's main loop: strip the raw line,
skip it when blank, when it has no `'='`, when the upper-cased stripped
key is not expected, or when the stripped value is empty; otherwise
yield the normalised key and the value. -/
def parsePairSim (line : List Char) : Option (List Char × List Char) :=
  let raw := pyStrip line
  if raw = [] then none
  else if ¬ ('=' ∈ raw) then none
  else
    let kv := splitOnce '=' raw
    let key := upperStr (pyStrip kv.1)
    let v := pyStrip kv.2
    if key ∈ expectedKeys then (if v = [] then none else some (key, v))
    else none

/-- One iteration of simnew.py's main loop: merge a parsed pair into the
accumulating buffer (`buffer[key] = val`); when the expected key set
becomes a subset of the buffer's keys, dispatch the buffer as a frame
and clear it (`send_data(modem, buffer); buffer.clear()`).  Returns the
new buffer and the dispatched frame, if any. -/
def stepAcc (b : List (List Char × List Char)) (line : List Char) :
    List (List Char × List Char) × Option (List (List Char × List Char)) :=
  match parsePairSim line with
  | none => (b, none)
  | some kv =>
    let b2 := pyInsert b kv.1 kv.2
    if bufferComplete b2 then ([], some b2) else (b2, none)

/-- simnew.py's main loop over a list of raw sensor lines: the final
buffer and the dispatched frames in order. -/
def runAcc (b : List (List Char × List Char)) :
    List (List Char) → List (List Char × List Char) × List (List (List Char × List Char))
  | [] => (b, [])
  | l :: ls =>
    let s := stepAcc b l
    let r := runAcc s.1 ls
    (r.1, match s.2 with
          | some f => f :: r.2
          | none => r.2)

/-- The GET request simnew.py's `send_data` builds for a frame:
`'&'.join(f"{k}={v}" ...)` spliced into the request line, with
`ENDPOINT = '/endpoint.php?'`. -/
def payloadOfFrame (f : List (List Char × List Char)) : List Char :=
  strL "GET /endpoint.php?" ++
    joinSep (strL "&") (f.map fun p => p.1 ++ strL "=" ++ p.2) ++
    strL " HTTP/1.1\x0d\nHost: merlet.alwaysdata.net\x0d\nConnection: keep-alive\x0d\n\x0d\n"

/-- The bytes of simnew.py's `AT+CIPSEND` announcement for a frame: the
announced number is `len(payload)` — the character count of the payload
string, not its encoded byte length. -/
def cipsendWriteSimnew (f : List (List Char × List Char)) : List Nat :=
  utf8Encode (cipsendCmd (payloadOfFrame f).length ++ crlf)

/-- Model of simnew.py's `send_data`: write the announcement (length =
`len(payload)`, the character count), wait for the `>` prompt with one
retry (`chunks1`, then `chunks2`), and only when a prompt arrived write
`payload.encode()`. -/
def send_data (f : List (List Char × List Char))
    (chunks1 chunks2 : List (List Nat)) : SendOutcome × List (List Nat) :=
  let payload := payloadOfFrame f
  let cmdWrite := utf8Encode (cipsendCmd payload.length ++ crlf)
  if waitForChunks promptKeyword chunks1 then
    (.sent, [cmdWrite, utf8Encode payload])
  else if waitForChunks promptKeyword chunks2 then
    (.sent, [cmdWrite, utf8Encode payload])
  else (.skipped, [cmdWrite])

/-! ## Modem initialisation and socket-open checks -/

/-- Whether initialisation reaches the main loop or the process exits
fatally (`sys.exit(1)`). -/
inductive InitOutcome where
  | proceed
  | exitFatal
deriving DecidableEq, Repr

/-- The socket-open success marker `f'+CIPOPEN: {SOCKET_ID},0'` with
`SOCKET_ID = 0`. -/
def cipopenMarker : List Char := strL "+CIPOPEN: 0,0"

/-- simnew.py's `init_modem` tail: the response `send_at` returns for
the `AT+CIPOPEN` command (`firstResp`, read after the 2 s settle delay)
is discarded; after a further 1 s sleep a second `read_all` yields
`combo`, and only `combo` is searched for the marker; on failure the
process exits.  (The earlier AT steps of simnew's `init_modem` perform
no checks at all.) -/
def init_modem_simnew (firstResp combo : List Char) : InitOutcome :=
  if strIn cipopenMarker combo then .proceed else .exitFatal

/-- newsim3.py's `init_modem` tail: the `AT+CIPOPEN` response read by
`send_at(ser, oc, wait=5)` (`firstResp`) is discarded; a follow-up
`send_at(ser, '', wait=0)` returns `secondResp`, and only `secondResp`
is searched for the marker. -/
def init_modem_newsim3 (firstResp secondResp : List Char) : InitOutcome :=
  if strIn cipopenMarker secondResp then .proceed else .exitFatal

/-- Modelled from the spec: the socket-open success test the spec
describes — "read twice, with an intervening sleep, and concatenate
both buffers before searching for the marker".  The source files search
only the second buffer; this definition exists to compare. -/
def cipopenConcatCheck (firstResp secondResp : List Char) : Bool :=
  strIn cipopenMarker (firstResp ++ secondResp)

/-- newlast.py's `init_modem` as a function of the checked command
responses: SIM status must contain `+CPIN: READY`, one of the three
`AT+CGATT?` attempts must contain `+CGATT: 1`, `AT+NETOPEN` must answer
`+NETOPEN: 0` — each otherwise exiting — and finally `AT+CIPOPEN` is
sent and its response read, but the success check is commented out in
the source, so initialisation proceeds regardless of `cipopenResp`. -/
def init_modem_newlast (cpinResp cgatt1 cgatt2 cgatt3 netopenResp
    cipopenResp : List Char) : InitOutcome :=
  if ¬ strIn (strL "+CPIN: READY") cpinResp then .exitFatal
  else if ¬ (strIn (strL "+CGATT: 1") cgatt1 || strIn (strL "+CGATT: 1") cgatt2 ||
             strIn (strL "+CGATT: 1") cgatt3) then .exitFatal
  else if ¬ strIn (strL "+NETOPEN: 0") netopenResp then .exitFatal
  else .proceed

/-- simnew.py end to end: when `init_modem` exits fatally no sensor
line is ever read and no frame is dispatched (`none`); otherwise the
main loop runs and yields its dispatched frames. -/
def simnewRun (firstResp combo : List Char) (lines : List (List Char)) :
    Option (List (List (List Char × List Char))) :=
  match init_modem_simnew firstResp combo with
  | .exitFatal => none
  | .proceed => some (runAcc [] lines).2

/-! ## Helper lemmas: substring search over a growing buffer -/

theorem leadsWith_append (n h t : List Char) (hp : leadsWith n h = true) :
    leadsWith n (h ++ t) = true := by
  induction n generalizing h with
  | nil => simp [leadsWith]
  | cons a as ih =>
    cases h with
    | nil => simp [leadsWith] at hp
    | cons b bs =>
      simp only [List.cons_append, leadsWith, Bool.and_eq_true] at hp ⊢
      exact ⟨hp.1, ih bs hp.2⟩

theorem strIn_append_right (n s t : List Char) (hs : strIn n s = true) :
    strIn n (s ++ t) = true := by
  induction s with
  | nil =>
    cases n with
    | nil => cases t <;> simp [strIn, leadsWith]
    | cons a as => simp [strIn, leadsWith] at hs
  | cons c cs ih =>
    simp only [strIn, Bool.or_eq_true, List.cons_append] at hs ⊢
    rcases hs with h | h
    · exact Or.inl (leadsWith_append _ _ _ h)
    · exact Or.inr (ih h)

theorem waitForAux_iff (kw : List Char) :
    ∀ (cs : List (List Nat)) (buf : List Char), cs ≠ [] →
      (waitForAux kw buf cs = true ↔
        strIn kw (buf ++ (cs.map decodeIgnore).flatten) = true) := by
  intro cs
  induction cs with
  | nil => intro buf h; exact absurd rfl h
  | cons c cs ih =>
    intro buf _
    cases cs with
    | nil =>
      cases hx : strIn kw (buf ++ decodeIgnore c) with
      | true => simp [waitForAux, hx]
      | false => simp [waitForAux, hx]
    | cons c2 cs2 =>
      cases hx : strIn kw (buf ++ decodeIgnore c) with
      | true =>
        constructor
        · intro _
          have h2 := strIn_append_right kw (buf ++ decodeIgnore c)
            ((List.map decodeIgnore (c2 :: cs2)).flatten) hx
          simpa [List.append_assoc] using h2
        · intro _
          simp [waitForAux, hx]
      | false =>
        have hstep : waitForAux kw buf (c :: c2 :: cs2) =
            waitForAux kw (buf ++ decodeIgnore c) (c2 :: cs2) := by
          simp [waitForAux, hx]
        rw [hstep, ih (buf ++ decodeIgnore c) (by simp)]
        simp [List.append_assoc]

/-! ## Helper lemmas: Python-dict semantics -/

theorem dLookup_pyInsert (d : List (List Char × List Char)) (k v k2 : List Char) :
    dLookup (pyInsert d k v) k2 = if k2 = k then some v else dLookup d k2 := by
  induction d with
  | nil =>
    simp only [pyInsert, dLookup]
    by_cases h : k2 = k
    · simp [h]
    · simp [h, Ne.symm h]
  | cons p rest ih =>
    simp only [pyInsert]
    by_cases hp : p.1 = k
    · rw [if_pos hp]
      simp only [dLookup]
      by_cases h : k2 = k
      · simp [h]
      · simp [h, Ne.symm h, hp]
    · rw [if_neg hp]
      simp only [dLookup]
      by_cases h2 : p.1 = k2
      · rw [if_pos h2]
        have hne : ¬ k2 = k := fun e => hp (h2.trans e)
        simp [hne, h2]
      · rw [if_neg h2, ih]
        by_cases h : k2 = k
        · simp [h]
        · simp [h, h2]

theorem mem_dKeys_pyInsert (d : List (List Char × List Char)) (k v k2 : List Char) :
    k2 ∈ dKeys (pyInsert d k v) ↔ k2 = k ∨ k2 ∈ dKeys d := by
  induction d with
  | nil => simp [pyInsert, dKeys]
  | cons p rest ih =>
    simp only [pyInsert]
    by_cases hp : p.1 = k
    · rw [if_pos hp]
      subst hp
      simp [dKeys]
    · rw [if_neg hp]
      simp only [dKeys, List.map_cons, List.mem_cons] at ih ⊢
      rw [ih]
      tauto

theorem dLookup_mem (d : List (List Char × List Char)) (k v : List Char)
    (h : dLookup d k = some v) : (k, v) ∈ d := by
  induction d with
  | nil => simp [dLookup] at h
  | cons p rest ih =>
    simp only [dLookup] at h
    by_cases hp : p.1 = k
    · rw [if_pos hp] at h
      cases p with
      | mk a b =>
        simp only at hp
        injection h with h2
        subst hp
        subst h2
        exact List.mem_cons_self _ _
    · rw [if_neg hp] at h
      exact List.mem_cons_of_mem _ (ih h)

theorem dLookup_foldl_insertEntry (es : List (List (List Char))) :
    ∀ (d0 : List (List Char × List Char)) (k : List Char),
      dLookup (es.foldl insertEntry d0) k =
        match lastVal k (es.filterMap entryPair2) with
        | some v => some v
        | none => dLookup d0 k := by
  induction es with
  | nil => intro d0 k; simp [lastVal]
  | cons e es ih =>
    intro d0 k
    simp only [List.foldl_cons, List.filterMap_cons]
    cases he : entryPair2 e with
    | none =>
      simp only [insertEntry, he]
      exact ih d0 k
    | some p =>
      simp only [insertEntry, he]
      rw [ih (pyInsert d0 p.1 p.2) k]
      simp only [lastVal]
      cases hl : lastVal k (es.filterMap entryPair2) with
      | some w => rfl
      | none =>
        rw [dLookup_pyInsert]
        by_cases hk : p.1 = k
        · simp [hk]
        · have hk2 : ¬ k = p.1 := fun e2 => hk e2.symm
          simp [hk, hk2]

theorem transformReadings_eq_filterMap (d : List (List Char × List Char)) :
    transformReadings d =
      d.filterMap fun p => (pyFloat p.2).map fun x => (normSensorType p.1, x) := by
  induction d with
  | nil => rfl
  | cons p rest ih =>
    simp only [transformReadings, List.filterMap_cons]
    cases h : pyFloat p.2 <;> simp [h, ih]

theorem mem_transformReadings (d : List (List Char × List Char))
    (k v : List Char) (pf : PyFloat) (hm : (k, v) ∈ d)
    (hf : pyFloat v = some pf) :
    (normSensorType k, pf) ∈ transformReadings d := by
  induction d with
  | nil => simp at hm
  | cons p rest ih =>
    rcases List.mem_cons.mp hm with h | h
    · rw [← h]
      simp [transformReadings, hf]
    · cases hx : pyFloat p.2 with
      | some x =>
        simp only [transformReadings, hx]
        exact List.mem_cons_of_mem _ (ih h)
      | none =>
        simp only [transformReadings, hx]
        exact ih h

theorem transformReadings_mem_exists (d : List (List Char × List Char))
    (r : List Char × PyFloat) (h : r ∈ transformReadings d) :
    ∃ p, p ∈ d ∧ pyFloat p.2 = some r.2 ∧ r.1 = normSensorType p.1 := by
  induction d with
  | nil => simp [transformReadings] at h
  | cons p rest ih =>
    cases hx : pyFloat p.2 with
    | some x =>
      simp only [transformReadings, hx] at h
      rcases List.mem_cons.mp h with h2 | h2
      · refine ⟨p, List.mem_cons_self _ _, ?_, ?_⟩
        · rw [hx, h2]
        · rw [h2]
      · rcases ih h2 with ⟨q, hq, h3, h4⟩
        exact ⟨q, List.mem_cons_of_mem _ hq, h3, h4⟩
    | none =>
      simp only [transformReadings, hx] at h
      rcases ih h with ⟨q, hq, h3, h4⟩
      exact ⟨q, List.mem_cons_of_mem _ hq, h3, h4⟩

/-! ## Helper lemmas: the accumulating frame policy -/

theorem parsePairSim_mem (line : List Char) (kv : List Char × List Char)
    (h : parsePairSim line = some kv) : kv.1 ∈ expectedKeys := by
  simp only [parsePairSim] at h
  split_ifs at h with h1 h2 h3 h4
  all_goals simp_all
  rw [← h]
  exact h3

theorem stepAcc_dispatch_clears (b : List (List Char × List Char))
    (line : List Char) (f : List (List Char × List Char))
    (h : (stepAcc b line).2 = some f) : (stepAcc b line).1 = [] := by
  cases hp : parsePairSim line with
  | none => simp [stepAcc, hp] at h
  | some kv =>
    by_cases hc : bufferComplete (pyInsert b kv.1 kv.2) = true
    · simp [stepAcc, hp, hc]
    · simp [stepAcc, hp, hc] at h

theorem stepAcc_dispatch_frame (b : List (List Char × List Char))
    (line : List Char) (f : List (List Char × List Char))
    (hb : ∀ k, k ∈ dKeys b → k ∈ expectedKeys)
    (h : (stepAcc b line).2 = some f) :
    ∀ k, k ∈ expectedKeys ↔ k ∈ dKeys f := by
  cases hp : parsePairSim line with
  | none => simp [stepAcc, hp] at h
  | some kv =>
    by_cases hc : bufferComplete (pyInsert b kv.1 kv.2) = true
    · have hf : f = pyInsert b kv.1 kv.2 := by
        simp [stepAcc, hp, hc] at h
        exact h.symm
      subst hf
      intro k
      constructor
      · intro hk
        simp only [bufferComplete] at hc
        have h2 := List.all_eq_true.mp hc k hk
        simpa using h2
      · intro hk
        rcases (mem_dKeys_pyInsert b kv.1 kv.2 k).mp hk with h1 | h1
        · rw [h1]
          exact parsePairSim_mem line kv hp
        · exact hb k h1
    · simp [stepAcc, hp, hc] at h

theorem runAcc_frames (lines : List (List Char)) :
    ∀ b, (∀ k, k ∈ dKeys b → k ∈ expectedKeys) → bufferComplete b = false →
      (∀ f ∈ (runAcc b lines).2, ∀ k, k ∈ expectedKeys ↔ k ∈ dKeys f) ∧
      (∀ k, k ∈ dKeys (runAcc b lines).1 → k ∈ expectedKeys) ∧
      bufferComplete (runAcc b lines).1 = false := by
  induction lines with
  | nil =>
    intro b hb hc
    exact ⟨by simp [runAcc], hb, hc⟩
  | cons l ls ih =>
    intro b hb hc
    cases hp : parsePairSim l with
    | none =>
      have hstep : stepAcc b l = (b, none) := by simp [stepAcc, hp]
      have h2 := ih b hb hc
      simpa [runAcc, hstep] using h2
    | some kv =>
      by_cases hcomp : bufferComplete (pyInsert b kv.1 kv.2) = true
      · have hstep : stepAcc b l = ([], some (pyInsert b kv.1 kv.2)) := by
          simp [stepAcc, hp, hcomp]
        have hinv0 : ∀ k, k ∈ dKeys ([] : List (List Char × List Char)) →
            k ∈ expectedKeys := by simp [dKeys]
        have hc0 : bufferComplete [] = false := rfl
        have h2 := ih [] hinv0 hc0
        refine ⟨?_, ?_, ?_⟩
        · intro f hf
          have hf2 : f ∈ pyInsert b kv.1 kv.2 :: (runAcc [] ls).2 := by
            simpa [runAcc, hstep] using hf
          rcases List.mem_cons.mp hf2 with h3 | h3
          · subst h3
            exact stepAcc_dispatch_frame b l _ hb (by rw [hstep])
          · exact h2.1 f h3
        · intro k hk
          exact h2.2.1 k (by simpa [runAcc, hstep] using hk)
        · simpa [runAcc, hstep] using h2.2.2
      · have hstep : stepAcc b l = (pyInsert b kv.1 kv.2, none) := by
          simp [stepAcc, hp, hcomp]
        have hinv2 : ∀ k, k ∈ dKeys (pyInsert b kv.1 kv.2) → k ∈ expectedKeys := by
          intro k hk
          rcases (mem_dKeys_pyInsert b kv.1 kv.2 k).mp hk with h1 | h1
          · rw [h1]
            exact parsePairSim_mem l kv hp
          · exact hb k h1
        have hcomp2 : bufferComplete (pyInsert b kv.1 kv.2) = false :=
          Bool.eq_false_iff.mpr hcomp
        have h2 := ih _ hinv2 hcomp2
        simpa [runAcc, hstep] using h2

theorem send_json_data_empty (render : PyFloat → List Char)
    (d : List (List Char × List Char)) (chunks : List (List Nat))
    (h : transformReadings d = []) :
    send_json_data render d chunks = (.nothingToSend, []) := by
  simp [send_json_data, h]

/-! ## Claim theorems -/

/-- C5: under the accumulating frame policy (simnew.py), a frame is
dispatched exactly once per completed required-key set: whenever a step
dispatches a frame the buffer is cleared to empty immediately, and over
any run from the empty buffer every dispatched frame's key set is
exactly the five required keys (each observed at least once since the
last dispatch, in any arrival order) while the retained buffer is never
complete — so a completion always coincides with a dispatch and no key
leaks into the next frame. -/
theorem C5_accumulating_dispatch_exactly_once :
    (∀ b line f, (stepAcc b line).2 = some f → (stepAcc b line).1 = []) ∧
    (∀ lines,
      (∀ f ∈ (runAcc [] lines).2, ∀ k, k ∈ expectedKeys ↔ k ∈ dKeys f) ∧
      bufferComplete (runAcc [] lines).1 = false) := by
  refine ⟨stepAcc_dispatch_clears, fun lines => ?_⟩
  have h := runAcc_frames lines [] (by simp [dKeys]) rfl
  exact ⟨h.1, h.2.2⟩

/-- Witness for C5: dispatching the fifth required key from a
four-key buffer leaves the cleared (empty) buffer behind. -/
theorem C5_witness :
    (stepAcc [(strL "SPEED", strL "1"), (strL "TEMP", strL "2"),
      (strL "GEAR", strL "3"), (strL "FUEL", strL "4")] (strL "RPM=7")).1 = [] :=
  C5_accumulating_dispatch_exactly_once.1
    [(strL "SPEED", strL "1"), (strL "TEMP", strL "2"),
      (strL "GEAR", strL "3"), (strL "FUEL", strL "4")] (strL "RPM=7")
    [(strL "SPEED", strL "1"), (strL "TEMP", strL "2"),
      (strL "GEAR", strL "3"), (strL "FUEL", strL "4"), (strL "RPM", strL "7")]
    (by decide)

/-- C10: under the accumulating frame policy (simnew.py), a repeated
valid key overwrites the earlier value in place (`buffer[key] = val` on
a Python dict), a valid pair that does not complete the required set is
merged without dispatching, and a dispatched frame is exactly the
buffer with the final arriving pair merged, so it maps the arriving key
to its most recent value and every other key to the value it last had
in the buffer. -/
theorem C10_accumulating_overwrite :
    (∀ d k v1 v2, dLookup (pyInsert (pyInsert d k v1) k v2) k = some v2) ∧
    (∀ b line kv, parsePairSim line = some kv →
       bufferComplete (pyInsert b kv.1 kv.2) = false →
       stepAcc b line = (pyInsert b kv.1 kv.2, none)) ∧
    (∀ b line kv f, parsePairSim line = some kv →
       (stepAcc b line).2 = some f →
       f = pyInsert b kv.1 kv.2 ∧ dLookup f kv.1 = some kv.2 ∧
       ∀ k2, ¬ k2 = kv.1 → dLookup f k2 = dLookup b k2) := by
  refine ⟨?_, ?_, ?_⟩
  · intro d k v1 v2
    rw [dLookup_pyInsert]
    simp
  · intro b line kv hp hc
    simp [stepAcc, hp, hc]
  · intro b line kv f hp h
    by_cases hc : bufferComplete (pyInsert b kv.1 kv.2) = true
    · have hf : f = pyInsert b kv.1 kv.2 := by
        simp [stepAcc, hp, hc] at h
        exact h.symm
      refine ⟨hf, ?_, ?_⟩
      · rw [hf, dLookup_pyInsert]
        simp
      · intro k2 hk2
        rw [hf, dLookup_pyInsert, if_neg hk2]
    · simp [stepAcc, hp, hc] at h

/-- Witness for C10: the frame dispatched by the fifth key maps that
key to the value it arrived with. -/
theorem C10_witness :
    dLookup [(strL "SPEED", strL "1"), (strL "TEMP", strL "2"),
      (strL "GEAR", strL "3"), (strL "FUEL", strL "4"), (strL "RPM", strL "7")]
      (strL "RPM") = some (strL "7") :=
  (C10_accumulating_overwrite.2.2
    [(strL "SPEED", strL "1"), (strL "TEMP", strL "2"),
      (strL "GEAR", strL "3"), (strL "FUEL", strL "4")] (strL "RPM=7")
    (strL "RPM", strL "7")
    [(strL "SPEED", strL "1"), (strL "TEMP", strL "2"),
      (strL "GEAR", strL "3"), (strL "FUEL", strL "4"), (strL "RPM", strL "7")]
    (by decide) (by decide)).2.1

/-- C6: when the ready prompt never appears within the timeout, both
send pipelines abandon the transmission with only the announcement
written — zero payload bytes reach the modem link — and report the
skipped outcome; and the newlast main loop is a plain map over its
input lines, so after a skipped transmission it continues with the next
line unchanged. -/
theorem C6_no_prompt_skips_transmission :
    (∀ render d chunks, ¬ transformReadings d = [] →
       waitForChunks promptKeyword chunks = false →
       send_json_data render d chunks =
         (.skipped, [cipsendWriteNewlast render d])) ∧
    (∀ f chunks1 chunks2, waitForChunks promptKeyword chunks1 = false →
       waitForChunks promptKeyword chunks2 = false →
       send_data f chunks1 chunks2 = (.skipped, [cipsendWriteSimnew f])) ∧
    (∀ render s rest, runNewlast render (s :: rest) =
       mainStepNewlast render s.1 s.2 :: runNewlast render rest) := by
  refine ⟨?_, ?_, ?_⟩
  · intro render d chunks h1 h2
    simp [send_json_data, h1, h2, cipsendWriteNewlast]
  · intro f chunks1 chunks2 h1 h2
    simp [send_data, h1, h2, cipsendWriteSimnew]
  · intro render s rest
    rfl

/-- Witness for C6: a dict with one numeric reading but no prompt read
available yields the skipped outcome with only the announcement
written. -/
theorem C6_witness :
    send_json_data (fun _ => strL "0") [(strL "a", strL "1")] [] =
      (SendOutcome.skipped,
        [cipsendWriteNewlast (fun _ => strL "0") [(strL "a", strL "1")]]) :=
  C6_no_prompt_skips_transmission.1 (fun _ => strL "0") [(strL "a", strL "1")] []
    (by decide) rfl

/-- C9: whenever the validated reading sequence is empty — in
particular for every sensor line yielding zero parseable pairs — no
transmission is attempted: `send_json_data` aborts with the
nothing-to-send outcome having written no bytes, and the main-loop
iteration writes no bytes to the modem link and never reaches a sent
outcome. -/
theorem C9_empty_readings_nothing_sent :
    (∀ render d chunks, transformReadings d = [] →
       send_json_data render d chunks = (.nothingToSend, [])) ∧
    (∀ render line chunks, validatedReadingsOfLine line = [] →
       (mainStepNewlast render line chunks).2 = [] ∧
       ¬ (mainStepNewlast render line chunks).1 = .send .sent) := by
  refine ⟨send_json_data_empty, ?_⟩
  intro render line chunks h
  by_cases hl : pyStrip line = []
  · simp [mainStepNewlast, hl]
  · cases hp : parseEntriesNewlast (pyStrip line) with
    | none => simp [mainStepNewlast, hl, hp]
    | some d =>
      have ht : transformReadings d = [] := by
        simpa [validatedReadingsOfLine, hp] using h
      by_cases hd : d = []
      · simp [mainStepNewlast, hl, hp, hd]
      · simp [mainStepNewlast, hl, hp, hd,
          send_json_data_empty render d chunks ht]

/-- Witness for C9: the line `a=b` parses to a dict whose only value
fails numeric parsing, so the iteration writes nothing and nothing is
sent. -/
theorem C9_witness :
    (mainStepNewlast (fun _ => strL "0") (strL "a=b") []).2 = [] ∧
    ¬ (mainStepNewlast (fun _ => strL "0") (strL "a=b") []).1 = .send .sent :=
  C9_empty_readings_nothing_sent.2 (fun _ => strL "0") (strL "a=b") [] (by decide)

/-- C3 counterexample: the line `temp=36.2,x` contains the well-formed
numeric pair `temp=36.2` (which parses to exactly 181/5), yet the
assembled reading set is empty, because the segment `x` makes the tuple
unpacking raise and the whole line is discarded; and on
`temp=1,temp=2` the earlier pair's value 1 never appears in the reading
set — the later pair overwrites it in the dict. -/
theorem C3_counterexample :
    validatedReadingsOfLine (strL "temp=36.2,x") = [] ∧
    pyFloat (strL "36.2") = some (.finite (Rat.divInt 181 5)) ∧
    validatedReadingsOfLine (strL "temp=1,temp=2") =
      [(strL "temperature", .finite (Rat.divInt 2 1))] ∧
    pyFloat (strL "1") = some (.finite (Rat.divInt 1 1)) := by
  refine ⟨by decide, by decide, by decide, by decide⟩

/-- C3 (amended): for every sensor line in which every comma-separated
segment splits on `=` into exactly two parts (otherwise the whole line
is rejected by the unpacking error), and for every key whose last
surviving pair on the line carries a value that parses as a number, the
assembled reading set contains an entry whose sensor_type is the
lower-cased alias-normalized key and whose value is exactly the parsed
float. -/
theorem C3_normalized_reading_present (line k v : List Char) (pf : PyFloat)
    (hsplit : ∀ e ∈ pySplit ',' (pyStrip line), (pySplit '=' e).length = 2)
    (hlast : lastVal k ((pySplit ',' (pyStrip line)).filterMap
        (fun s => entryPair2 (pySplit '=' s))) = some v)
    (hnum : pyFloat v = some pf) :
    (normSensorType k, pf) ∈ validatedReadingsOfLine line := by
  have hall : ((pySplit ',' (pyStrip line)).map (pySplit '=')).all
      (fun e => e.length = 2) = true := by
    rw [List.all_eq_true]
    intro e he
    rcases List.mem_map.mp he with ⟨s, hs, rfl⟩
    simpa using hsplit s hs
  have hparse : parseEntriesNewlast (pyStrip line) =
      some (((pySplit ',' (pyStrip line)).map (pySplit '=')).foldl insertEntry []) := by
    simp [parseEntriesNewlast, hall]
  have hlook : dLookup
      (((pySplit ',' (pyStrip line)).map (pySplit '=')).foldl insertEntry []) k =
      some v := by
    rw [dLookup_foldl_insertEntry]
    simp only [List.filterMap_map, Function.comp_def]
    rw [hlast]
  have hmem := dLookup_mem _ k v hlook
  have hres := mem_transformReadings _ k v pf hmem hnum
  simpa [validatedReadingsOfLine, hparse] using hres

/-- Witness for C3 (amended): the spec's own scenario line
`speed=50,temp=36.2` yields the reading `(temperature, 36.2)`. -/
theorem C3_witness :
    (normSensorType (strL "temp"), PyFloat.finite (Rat.divInt 181 5)) ∈
      validatedReadingsOfLine (strL "speed=50,temp=36.2") :=
  C3_normalized_reading_present (strL "speed=50,temp=36.2") (strL "temp")
    (strL "36.2") (.finite (Rat.divInt 181 5)) (by decide) (by decide) (by decide)

/-- C4 counterexample: the value `inf` passes Python's `float` parser,
so the reading `(speed, inf)` is forwarded into the encoded payload and
sent even though its value is not finite. -/
theorem C4_counterexample :
    transformReadings [(strL "speed", strL "inf")] =
      [(strL "speed", PyFloat.inf)] ∧
    PyFloat.inf.isFinite = false ∧
    (send_json_data (fun _ => strL "Infinity")
        [(strL "speed", strL "inf")] [[62]]).1 = .sent := by
  refine ⟨by decide, rfl, by decide⟩

/-- C4 (amended): every reading forwarded into the encoded payload
carries exactly the successfully parsed numeric value of its source
pair — a pair whose value fails numeric parsing is discarded, never
forwarded with a placeholder — but the parsed value may be non-finite
(`inf`, `nan`), and such readings are forwarded. -/
theorem C4_readings_are_parsed_values :
    (∀ d, transformReadings d =
       d.filterMap fun p => (pyFloat p.2).map fun x => (normSensorType p.1, x)) ∧
    (∀ d r, r ∈ transformReadings d →
       ∃ p, p ∈ d ∧ pyFloat p.2 = some r.2 ∧ r.1 = normSensorType p.1) :=
  ⟨transformReadings_eq_filterMap, transformReadings_mem_exists⟩

/-- Witness for C4 (amended): the forwarded reading `(speed, inf)`
traces back to the dict pair `speed=inf` whose value parsed. -/
theorem C4_witness :
    ∃ p, p ∈ [(strL "speed", strL "inf")] ∧
      pyFloat p.2 = some PyFloat.inf ∧ strL "speed" = normSensorType p.1 :=
  C4_readings_are_parsed_values.2 [(strL "speed", strL "inf")]
    (strL "speed", PyFloat.inf) (by decide)

/-- C2 counterexample: in newlast.py the socket-open success check is
commented out, so even with a healthy SIM/network and a socket-open
response containing no success marker at all (`ERROR`), initialisation
proceeds to the transmission loop instead of terminating. -/
theorem C2_counterexample :
    init_modem_newlast (strL "+CPIN: READY") (strL "+CGATT: 1") [] []
      (strL "+NETOPEN: 0") (strL "ERROR") = .proceed := by decide

/-- C2 (amended): in the simnew.py and newsim3.py variants, a
socket-open read window lacking the success marker for socket 0 makes
the process exit fatally, and in simnew.py no frame is ever dispatched
afterwards; the newlast.py variant has this check disabled and proceeds
regardless. -/
theorem C2_socket_open_failure_exits (firstResp combo secondResp : List Char)
    (lines : List (List Char))
    (h : strIn cipopenMarker combo = false) :
    init_modem_simnew firstResp combo = .exitFatal ∧
    simnewRun firstResp combo lines = none ∧
    (strIn cipopenMarker secondResp = false →
      init_modem_newsim3 firstResp secondResp = .exitFatal) := by
  refine ⟨?_, ?_, ?_⟩
  · simp [init_modem_simnew, h]
  · simp [simnewRun, init_modem_simnew, h]
  · intro h2
    simp [init_modem_newsim3, h2]

/-- Witness for C2 (amended): an `ERROR` socket-open window exits and
dispatches nothing. -/
theorem C2_witness :
    init_modem_simnew (strL "OK") (strL "ERROR") = .exitFatal ∧
    simnewRun (strL "OK") (strL "ERROR") [strL "SPEED=1"] = none :=
  ⟨(C2_socket_open_failure_exits (strL "OK") (strL "ERROR") (strL "ERROR")
      [strL "SPEED=1"] (by decide)).1,
   (C2_socket_open_failure_exits (strL "OK") (strL "ERROR") (strL "ERROR")
      [strL "SPEED=1"] (by decide)).2.1⟩

/-- C7 counterexample: a success marker that arrives entirely within
the immediate response window (the buffer `send_at` drains and
discards) is not recognised — both simnew.py and newsim3.py exit
fatally — whereas the spec-described concatenated search would have
succeeded. -/
theorem C7_counterexample :
    strIn cipopenMarker cipopenMarker = true ∧
    init_modem_simnew cipopenMarker [] = .exitFatal ∧
    init_modem_newsim3 cipopenMarker [] = .exitFatal ∧
    cipopenConcatCheck cipopenMarker [] = true := by
  refine ⟨by decide, by decide, by decide, by decide⟩

/-- C7 (amended): the socket-open step does perform two reads with an
intervening sleep, but only the second (delayed) buffer is searched:
the outcome is independent of the first read's contents, a marker in
the delayed window is recognised, and a delayed window without the
marker is fatal even when the marker appeared in the immediate
response. -/
theorem C7_second_window_only (r1 r1b combo : List Char) :
    init_modem_simnew r1 combo = init_modem_simnew r1b combo ∧
    init_modem_newsim3 r1 combo = init_modem_newsim3 r1b combo ∧
    (strIn cipopenMarker combo = true → init_modem_simnew r1 combo = .proceed) ∧
    (strIn cipopenMarker combo = false → init_modem_simnew r1 combo = .exitFatal) := by
  refine ⟨rfl, rfl, ?_, ?_⟩
  · intro h
    simp [init_modem_simnew, h]
  · intro h
    simp [init_modem_simnew, h]

/-- Witness for C7 (amended): a marker arriving in the delayed window
is recognised whatever the first window held. -/
theorem C7_witness :
    init_modem_simnew (strL "garbage")
      (strL "\x0d\n+CIPOPEN: 0,0\x0d\n") = .proceed :=
  (C7_second_window_only (strL "garbage") []
    (strL "\x0d\n+CIPOPEN: 0,0\x0d\n")).2.2.1 (by decide)

/-- C8 counterexample: the decoder the code actually uses
(`errors='ignore'`) drops the undecodable byte 255, while the
spec-described replacing decoder inserts U+FFFD; the difference is
observable in `wait_for`: the keyword `ab` matches the ignored
decoding of `a\xffb` but not its replaced decoding. -/
theorem C8_counterexample :
    decodeIgnore [97, 255, 98] = strL "ab" ∧
    decodeReplace [97, 255, 98] = ['a', replacementChar, 'b'] ∧
    waitForChunks (strL "ab") [[97, 255, 98]] = true ∧
    strIn (strL "ab") (decodeReplace [97, 255, 98]) = false ∧
    sendAtResponse [97, 255, 98] = strL "ab" := by
  refine ⟨by decide, by decide, by decide, by decide, by decide⟩

/-- C8 (amended): the ATExchange primitives are total — undecodable
bytes are dropped (`errors='ignore'`), not replaced — and for
`wait_for` the absence of a keyword match is the only failure signal:
it returns true exactly when at least one read occurred before the
deadline and the keyword occurs in the accumulated permissively decoded
buffer, and false otherwise. -/
theorem C8_await_keyword_total (kw : List Char) (chunks : List (List Nat)) :
    waitForChunks kw chunks = true ↔
      (¬ chunks = [] ∧ strIn kw ((chunks.map decodeIgnore).flatten) = true) := by
  cases chunks with
  | nil => simp [waitForChunks, waitForAux]
  | cons c cs =>
    rw [waitForChunks, waitForAux_iff kw (c :: cs) [] (by simp)]
    simp

/-- The five accumulating-policy sensor lines of the C1 failing input:
the SPEED value carries the two-byte character µ. -/
def c1Lines : List (List Char) :=
  [strL "SPEED=1µ", strL "TEMP=2", strL "GEAR=3", strL "FUEL=4", strL "RPM=5"]

/-- The frame those five lines accumulate into. -/
def c1Frame : List (List Char × List Char) :=
  [(strL "SPEED", strL "1µ"), (strL "TEMP", strL "2"), (strL "GEAR", strL "3"),
   (strL "FUEL", strL "4"), (strL "RPM", strL "5")]

/-- C1: evaluation of simnew.py's send pipeline at the failing input.
The five lines accumulate into a frame whose GET payload has 119
characters but 120 encoded bytes; `send_data` announces
`AT+CIPSEND=0,119` (the character count) and then writes the 120-byte
encoded payload, so the announced length differs from the byte count
written.  (newlast.py instead announces
`len(http_payload.encode('utf-8'))`, the byte count it writes.) -/
theorem C1_announced_length_mismatch :
    (runAcc [] c1Lines).2 = [c1Frame] ∧
    (payloadOfFrame c1Frame).length = 119 ∧
    (utf8Encode (payloadOfFrame c1Frame)).length = 120 ∧
    send_data c1Frame [[62]] [] =
      (.sent, [utf8Encode (cipsendCmd 119 ++ crlf),
        utf8Encode (payloadOfFrame c1Frame)]) := by
  set_option maxRecDepth 4000 in
  refine ⟨by decide, by decide, by decide, by decide⟩
